import Mathlib

/-!
Shallow embedding of the task-management GraphQL server
(`express-prisma-react/server/src/resolvers.js` and the server entry point),
together with theorems settling the behavioural claims about its
cursor paginator, ownership guard, record mutator and identity resolver.

The Prisma store is modelled as a `List Task` held in the order the
database returns it for `orderBy: createdAt desc`; `findMany` with a
`where` clause is `List.filter` (which preserves that order), `findUnique`
is `List.find?`, and the documented Prisma cursor semantics (position at
the row whose id equals the cursor, empty result when that row is absent)
are spelled out in `findManyTake`.
-/

namespace LGraphQL

/-- A row of the prisma `Task` model (id, title, optional description,
completion flag, owner reference, creation time). -/
structure Task where
  id : String
  title : String
  description : Option String
  completed : Bool
  userId : String
  createdAt : Nat
  deriving Repr, DecidableEq

/-- The authenticated user placed in the resolver context by the server's
context function (only its `id` is consulted by the resolvers). -/
structure Principal where
  id : String
  deriving Repr, DecidableEq

/-- The four error classes of `utils/errors.js`:
`AuthenticationError`, `ForbiddenError`, `ValidationError`, `NotFoundError`.
(The file defines no further error class; in particular there is no
invalid-cursor error anywhere in the code.) -/
inductive Err where
  | unauthenticated
  | forbidden
  | validation
  | notFound
  deriving Repr, DecidableEq

/-- `requireAuth(context)` from resolvers.js: throws `AuthenticationError`
when `context.user` is null, otherwise hands back the user. -/
def requireAuth (ctx : Option Principal) : Except Err Principal :=
  match ctx with
  | none => .error .unauthenticated
  | some u => .ok u

/-- `prisma.task.findUnique` by id. -/
def findById (store : List Task) (id : String) : Option Task :=
  store.find? (fun t => t.id = id)

/-- `prisma.task.findMany` over the ordered list `l` with `take n` and the
optional cursor clause of resolvers.js lines 123-132.  The JS spread
`...(after && ...)` omits the cursor clause entirely when `after` is a
falsy string, so an empty-string cursor behaves like an absent one.
With a cursor, prisma positions at the row whose id equals the cursor,
`skip: 1` drops that row itself, and a cursor row that does not exist
yields an empty result set. -/
def findManyTake (l : List Task) (n : Nat) (after : Option String) : List Task :=
  match after with
  | none => l.take n
  | some a =>
      if a = "" then l.take n
      else if (l.find? (fun t => t.id = a)).isSome then
        ((l.dropWhile (fun t => t.id ≠ a)).drop 1).take n
      else []

/-- GraphQL `TaskEdge`. -/
structure TaskEdge where
  cursor : String
  node : Task
  deriving Repr, DecidableEq

/-- GraphQL `PageInfo`. -/
structure PageInfo where
  hasNextPage : Bool
  hasPreviousPage : Bool
  startCursor : Option String
  endCursor : Option String
  deriving Repr, DecidableEq

/-- GraphQL `TaskConnection`. -/
structure TaskConnection where
  edges : List TaskEdge
  pageInfo : PageInfo
  totalCount : Nat
  deriving Repr, DecidableEq

/-- The body of `tasksCursor` (resolvers.js lines 120-149) applied to the
already-filtered, already-ordered task list: fetch `first + 1` rows from
the cursor position, report `hasNextPage` iff more than `first` came back,
truncate to `first` rows as edges, `hasPreviousPage = !!after`, and the
start/end cursors of the truncated page. -/
def paginate (l : List Task) (first : Nat) (after : Option String) : TaskConnection :=
  let tasks := findManyTake l (first + 1) after
  let edges := (tasks.take first).map (fun t => TaskEdge.mk t.id t)
  { edges := edges
    pageInfo :=
      { hasNextPage := decide (tasks.length > first)
        hasPreviousPage := match after with
          | none => false
          | some a => decide (a ≠ "")
        startCursor := edges.head?.map TaskEdge.cursor
        endCursor := edges.getLast?.map TaskEdge.cursor }
    totalCount := l.length }

/-- The `tasksCursor` resolver: require authentication, target
`userId || currentUser.id` (a falsy — empty — supplied id falls back to
the caller), scope the store to the target's tasks, count them, and
paginate. -/
def tasksCursor (ctx : Option Principal) (store : List Task)
    (first : Nat) (after : Option String) (userId : Option String) :
    Except Err TaskConnection :=
  match requireAuth ctx with
  | .error e => .error e
  | .ok currentUser =>
      let targetUserId := match userId with
        | some u => if u = "" then currentUser.id else u
        | none => currentUser.id
      .ok (paginate (store.filter (fun t => t.userId = targetUserId)) first after)

/-- The `task` query resolver (resolvers.js lines 72-83).  Its context
argument is declared but never consulted: no authentication and no
ownership check happens, mirrored here by the unused parameter. -/
def taskQuery (ctx : Option Principal) (store : List Task) (id : String) :
    Except Err Task :=
  match ctx with
  | _ =>
    match findById store id with
    | none => .error .notFound
    | some t => .ok t

/-- GraphQL `CreateTaskInput` (title required, description optional; there
is no owner field). -/
structure CreateTaskInput where
  title : String
  description : Option String
  deriving Repr, DecidableEq

/-- GraphQL `UpdateTaskInput` (all fields optional). -/
structure UpdateTaskInput where
  title : Option String
  description : Option String
  completed : Option Bool
  deriving Repr, DecidableEq

/-- `prisma.task.update` data application: a field absent from the input
leaves the stored value untouched. -/
def applyUpdate (t : Task) (input : UpdateTaskInput) : Task :=
  { t with
    title := input.title.getD t.title
    description := match input.description with
      | none => t.description
      | some d => some d
    completed := input.completed.getD t.completed }

/-- Whitespace for the purposes of JS `String.prototype.trim`. -/
def isWhitespaceChar (c : Char) : Bool :=
  c = ' ' ∨ c = '\t' ∨ c = '\n' ∨ c = '\r'

/-- JS `title.trim()`: strip leading and trailing whitespace. -/
def jsTrim (s : String) : String :=
  ⟨((s.toList.dropWhile isWhitespaceChar).reverse.dropWhile isWhitespaceChar).reverse⟩

/-- The `createTask` resolver: require authentication, reject a missing or
too-short (after trimming) title, then insert a task whose `userId` is the
authenticated user's id.  `freshId` and `now` stand for the id and
timestamp the database generates for the new row.  Returns the resolver
outcome together with the resulting store. -/
def createTask (ctx : Option Principal) (store : List Task)
    (input : CreateTaskInput) (freshId : String) (now : Nat) :
    Except Err Task × List Task :=
  match requireAuth ctx with
  | .error e => (.error e, store)
  | .ok user =>
      if input.title = "" ∨ (jsTrim input.title).length < 3 then
        (.error .validation, store)
      else
        let task : Task :=
          { id := freshId
            title := input.title
            description := input.description
            completed := false
            userId := user.id
            createdAt := now }
        (.ok task, store ++ [task])

/-- The `updateTask` resolver: require authentication, fetch the task,
`NotFoundError` when absent, `ForbiddenError` when the caller does not own
it, otherwise apply the update and return the updated snapshot. -/
def updateTask (ctx : Option Principal) (store : List Task)
    (id : String) (input : UpdateTaskInput) : Except Err Task × List Task :=
  match requireAuth ctx with
  | .error e => (.error e, store)
  | .ok user =>
      match findById store id with
      | none => (.error .notFound, store)
      | some existingTask =>
          if existingTask.userId ≠ user.id then (.error .forbidden, store)
          else
            let task := applyUpdate existingTask input
            (.ok task, store.map (fun t => if t.id = id then task else t))

/-- The `deleteTask` resolver: same fetch / NotFound / ownership sequence,
then remove the row and return the deleted snapshot. -/
def deleteTask (ctx : Option Principal) (store : List Task) (id : String) :
    Except Err Task × List Task :=
  match requireAuth ctx with
  | .error e => (.error e, store)
  | .ok user =>
      match findById store id with
      | none => (.error .notFound, store)
      | some existingTask =>
          if existingTask.userId ≠ user.id then (.error .forbidden, store)
          else (.ok existingTask, store.filter (fun t => t.id ≠ id))

/-- The `toggleTaskComplete` resolver: same fetch / NotFound / ownership
sequence, then flip the completion flag. -/
def toggleTaskComplete (ctx : Option Principal) (store : List Task) (id : String) :
    Except Err Task × List Task :=
  match requireAuth ctx with
  | .error e => (.error e, store)
  | .ok user =>
      match findById store id with
      | none => (.error .notFound, store)
      | some existingTask =>
          if existingTask.userId ≠ user.id then (.error .forbidden, store)
          else
            let task := { existingTask with completed := !existingTask.completed }
            (.ok task, store.map (fun t => if t.id = id then task else t))

/-- The payload `jwt.verify` yields on success (`generateToken` signs
exactly one claim, `userId`). -/
structure TokenClaims where
  userId : String
  deriving Repr, DecidableEq

/-- JS `String.replace` with a string pattern replaces only the first
occurrence; here specialised to deletion of the first occurrence. -/
def jsReplaceFirst (s pat : String) : String :=
  match s.splitOn pat with
  | [] => s
  | [x] => x
  | x :: rest => x ++ String.intercalate pat rest

/-- The server's context function (`getContext`): strip the bearer prefix,
return an absent user for an empty token, verify the token, return an
absent user when verification fails, otherwise look the embedded subject
up in the user table.  `verify` is the external jwt collaborator:
`verifyToken` wraps `jwt.verify` in try/catch and returns null on any
malformed, tampered or expired token, so it is modelled as an arbitrary
total function into `Option TokenClaims` and the theorems hold for every
such function.  Being a total Lean function into `Option`, the resolver
never throws: absence is its only negative signal. -/
def getContext (verify : String → Option TokenClaims)
    (users : List Principal) (authHeader : String) : Option Principal :=
  let token := jsReplaceFirst authHeader "Bearer "
  if token = "" then none
  else
    match verify token with
    | none => none
    | some decoded => users.find? (fun u => u.id = decoded.userId)

/-- The ordering the code's `orderBy: createdAt desc` sorts by:
newest-first comparison on the creation timestamp only (resolvers.js uses
no further sort key). -/
def createdDescLE (t1 t2 : Task) : Prop := t2.createdAt ≤ t1.createdAt

instance : DecidableRel createdDescLE := fun t1 t2 =>
  inferInstanceAs (Decidable (t2.createdAt ≤ t1.createdAt))

/-- Sample owner used by the concrete witnesses. -/
def alice : Principal := ⟨"alice"⟩

/-- A second principal, not the owner of `demoA`/`demoB`. -/
def bob : Principal := ⟨"bob"⟩

/-- Sample tasks (newest first) used by the concrete witnesses. -/
def demoA : Task := ⟨"t1", "first task", none, false, "alice", 30⟩

def demoB : Task := ⟨"t2", "second task", some "notes", true, "alice", 20⟩

def demoC : Task := ⟨"t3", "third task", none, false, "bob", 10⟩

def demoStore : List Task := [demoA, demoB, demoC]

/-- Two distinct tasks sharing a creation timestamp (used to exhibit the
missing ordering tie-break). -/
def tieX : Task := ⟨"a-task", "x", none, false, "alice", 100⟩

def tieY : Task := ⟨"b-task", "y", none, false, "alice", 100⟩

-- ===================== helper lemmas =====================

theorem take_add_split {α : Type} :
    ∀ (m n : Nat) (l : List α), l.take (m + n) = l.take m ++ (l.drop m).take n := by
  intro m
  induction m with
  | zero => intro n l; simp
  | succ m ih =>
      intro n l
      cases l with
      | nil => simp
      | cons x xs =>
          have : m + 1 + n = (m + n) + 1 := by omega
          rw [this]
          simp [List.take_succ_cons, ih n xs]

theorem find?_id_isSome_of_mem {l : List Task} {a : String}
    (h : a ∈ l.map Task.id) : (l.find? (fun t => t.id = a)).isSome := by
  rcases List.mem_map.1 h with ⟨t, ht, hta⟩
  exact List.find?_isSome.2 ⟨t, ht, by simp [hta]⟩

theorem dropWhile_ne_id_eq_drop :
    ∀ (l : List Task) (i : Nat) (hi : i < l.length),
      (l.map Task.id).Nodup →
      l.dropWhile (fun t => t.id ≠ (l.get ⟨i, hi⟩).id) = l.drop i := by
  intro l
  induction l with
  | nil => intro i hi _; simp at hi
  | cons x xs ih =>
      intro i hi hnd
      cases i with
      | zero => simp
      | succ j =>
          have hj : j < xs.length := by simpa using hi
          have hget : (x :: xs).get ⟨j + 1, hi⟩ = xs.get ⟨j, hj⟩ := rfl
          have hnd' : (∀ y ∈ xs, ¬y.id = x.id) ∧ (xs.map Task.id).Nodup := by
            simpa using hnd
          have hne : x.id ≠ (xs.get ⟨j, hj⟩).id := by
            intro h
            exact hnd'.1 (xs.get ⟨j, hj⟩) (xs.get_mem j hj) h.symm
          rw [hget]
          rw [List.dropWhile_cons_of_pos (by simpa using hne)]
          exact ih j hj hnd'.2

theorem findManyTake_sublist (l : List Task) (n : Nat) (a : Option String) :
    (findManyTake l n a).Sublist l := by
  cases a with
  | none => exact List.take_sublist _ _
  | some s =>
      by_cases hs : s = ""
      · simp only [findManyTake, if_pos hs]
        exact List.take_sublist _ _
      · simp only [findManyTake, if_neg hs]
        by_cases hf : (l.find? (fun t => t.id = s)).isSome
        · rw [if_pos hf]
          exact ((List.take_sublist _ _).trans
            ((List.drop_sublist _ _).trans (List.dropWhile_sublist _)))
        · rw [if_neg hf]; exact List.nil_sublist l

theorem paginate_edges_nodes (l : List Task) (first : Nat) (a : Option String) :
    (paginate l first a).edges.map TaskEdge.node
      = (findManyTake l (first + 1) a).take first := by
  simp [paginate, List.map_map, Function.comp_def]

theorem paginate_none_nodes (l : List Task) (k : Nat) :
    (paginate l k none).edges.map TaskEdge.node = l.take k := by
  rw [paginate_edges_nodes]
  show (l.take (k + 1)).take k = l.take k
  rw [List.take_take]
  congr 1
  omega

theorem paginate_none_endCursor (l : List Task) (k : Nat) :
    (paginate l k none).pageInfo.endCursor = ((l.take k).getLast?).map Task.id := by
  show (((findManyTake l (k + 1) none).take k).map (fun t => TaskEdge.mk t.id t)).getLast?.map
      TaskEdge.cursor = _
  show (((l.take (k + 1)).take k).map (fun t => TaskEdge.mk t.id t)).getLast?.map
      TaskEdge.cursor = _
  rw [List.take_take]
  have hmin : min k (k + 1) = k := by omega
  rw [hmin, List.getLast?_map, Option.map_map]
  rfl

theorem take_getLast?_eq (l : List Task) (k : Nat) (hk : 0 < k) (hl : l ≠ []) :
    ∃ hm : min k l.length - 1 < l.length,
      (l.take k).getLast? = some (l.get ⟨min k l.length - 1, hm⟩) := by
  have hlen : 0 < l.length := List.length_pos.2 hl
  have hm : min k l.length - 1 < l.length := by omega
  refine ⟨hm, ?_⟩
  rw [List.getLast?_eq_getElem?, List.length_take]
  have hlt : min k l.length - 1 < k := by omega
  rw [List.getElem?_take_of_lt hlt, List.getElem?_eq_getElem hm]
  rfl

theorem findById_filter_ne (store : List Task) (id : String) :
    findById (store.filter (fun s => s.id ≠ id)) id = none := by
  rw [findById, List.find?_eq_none]
  intro x hx
  have hxp := List.of_mem_filter hx
  simpa using hxp

theorem append_eq_take_disjoint {P Q l : List Task} {n : Nat}
    (h : P ++ Q = l.take n) (hnd : (l.map Task.id).Nodup) :
    ∀ t ∈ P, t ∉ Q := by
  have h2 : ((P ++ Q).map Task.id).Nodup := by
    rw [h]
    exact ((List.take_sublist n l).map Task.id).nodup hnd
  rw [List.map_append] at h2
  rcases List.nodup_append.1 h2 with ⟨-, -, hdisj⟩
  intro t htP htQ
  exact hdisj (List.mem_map_of_mem Task.id htP) (List.mem_map_of_mem Task.id htQ)

theorem paginate_nodes_subset (l : List Task) (first : Nat) (a : Option String) :
    ∀ t ∈ (paginate l first a).edges.map TaskEdge.node, t ∈ l := by
  intro t ht
  rw [paginate_edges_nodes] at ht
  exact (findManyTake_sublist l (first + 1) a).subset ((List.take_sublist _ _).subset ht)

theorem getContext_eq (verify : String → Option TokenClaims)
    (users : List Principal) (authHeader : String) :
    getContext verify users authHeader
      = (if jsReplaceFirst authHeader "Bearer " = "" then none
         else match verify (jsReplaceFirst authHeader "Bearer ") with
           | none => none
           | some d => users.find? (fun u => u.id = d.userId)) := rfl

theorem sorted_perm_eq :
    ∀ (l1 l2 : List Task), l1.Perm l2 → (l1.map Task.createdAt).Nodup →
      List.Sorted createdDescLE l1 → List.Sorted createdDescLE l2 → l1 = l2 := by
  intro l1
  induction l1 with
  | nil =>
      intro l2 hp _ _ _
      have := List.perm_nil.1 hp.symm
      rw [this]
  | cons a t ih =>
      intro l2 hp hnd h1 h2
      cases l2 with
      | nil => simpa using List.perm_nil.1 hp
      | cons b t2 =>
          have hab : a ∈ b :: t2 := hp.subset (List.mem_cons_self a t)
          have hba : b ∈ a :: t := hp.symm.subset (List.mem_cons_self b t2)
          have h1' := List.sorted_cons.1 h1
          have h2' := List.sorted_cons.1 h2
          have hnd' : (∀ y ∈ t, ¬y.createdAt = a.createdAt)
              ∧ (t.map Task.createdAt).Nodup := by simpa using hnd
          have heq : b = a := by
            rcases List.mem_cons.1 hba with h | h
            · exact h
            · have hab2 : b.createdAt ≤ a.createdAt := h1'.1 b h
              rcases List.mem_cons.1 hab with h3 | h3
              · exact h3.symm
              · have hba2 : a.createdAt ≤ b.createdAt := h2'.1 a h3
                have hts : b.createdAt = a.createdAt := le_antisymm hab2 hba2
                exact absurd hts (hnd'.1 b h)
          subst heq
          rw [ih t2 hp.cons_inv hnd'.2 h1'.2 h2'.2]

-- ===================== claim theorems =====================

/-- C1: for every collection ordered newest-first, every page size `first`
and every cursor `after` (absent, or the id of the record at position `i`),
the paginator fetches `first + 1` records starting immediately after the
position of `after` (from the start when `after` is absent), reports
`hasNextPage` true exactly when the fetched length exceeds `first`,
returns the fetched records truncated to `first` as the page items, and
reports `hasPreviousPage` true exactly when `after` was supplied. -/
theorem C1_cursor_paginator (l : List Task) (first : Nat)
    (hnd : (l.map Task.id).Nodup) :
    ((paginate l first none).edges.map TaskEdge.node = (l.take (first + 1)).take first
      ∧ (paginate l first none).pageInfo.hasNextPage
          = decide ((l.take (first + 1)).length > first)
      ∧ (paginate l first none).pageInfo.hasPreviousPage = false)
  ∧ ∀ (i : Nat) (hi : i < l.length), (l.get ⟨i, hi⟩).id ≠ "" →
      ((paginate l first (some (l.get ⟨i, hi⟩).id)).edges.map TaskEdge.node
          = ((l.drop (i + 1)).take (first + 1)).take first
        ∧ (paginate l first (some (l.get ⟨i, hi⟩).id)).pageInfo.hasNextPage
            = decide (((l.drop (i + 1)).take (first + 1)).length > first)
        ∧ (paginate l first (some (l.get ⟨i, hi⟩).id)).pageInfo.hasPreviousPage = true) := by
  constructor
  · refine ⟨?_, ?_, ?_⟩
    · rw [paginate_edges_nodes]
      rfl
    · rfl
    · rfl
  · intro i hi hne
    have hfetch : findManyTake l (first + 1) (some (l.get ⟨i, hi⟩).id)
        = (l.drop (i + 1)).take (first + 1) := by
      have hmem : (l.get ⟨i, hi⟩).id ∈ l.map Task.id :=
        List.mem_map_of_mem Task.id (l.get_mem i hi)
      have hfind := find?_id_isSome_of_mem hmem
      simp only [findManyTake, if_neg hne, if_pos hfind]
      rw [dropWhile_ne_id_eq_drop l i hi hnd]
      rw [List.drop_drop]
    refine ⟨?_, ?_, ?_⟩
    · rw [paginate_edges_nodes, hfetch]
    · show decide ((findManyTake l (first + 1) (some (l.get ⟨i, hi⟩).id)).length > first) = _
      rw [hfetch]
    · show (match some (l.get ⟨i, hi⟩).id with
        | none => false
        | some a => decide (a ≠ "")) = true
      simpa using hne

/-- Concrete instantiation of `C1_cursor_paginator`. -/
theorem C1_cursor_paginator_witness :
    ((demoStore.map Task.id).Nodup)
      ∧ (paginate demoStore 1 none).pageInfo.hasPreviousPage = false :=
  ⟨by decide, (C1_cursor_paginator demoStore 1 (by decide)).1.2.2⟩

/-- C2: paginating an unchanged collection with `first = k` and no cursor,
then again with `after` set to the first page's `endCursor`, yields two
pages whose items are disjoint and whose concatenation is the first `2k`
(or fewer, when the collection is smaller) items of the collection in
order — no record duplicated or skipped.  The hypotheses carry the data
model's invariants: unique record ids, pairwise-distinct creation
timestamps, and nonempty ids. -/
theorem C2_pagination_round_trip (l : List Task) (k : Nat)
    (hnd : (l.map Task.id).Nodup)
    (hts : (l.map Task.createdAt).Nodup)
    (hne : ∀ t ∈ l, t.id ≠ "") :
    (paginate l k none).edges.map TaskEdge.node
        ++ (paginate l k (paginate l k none).pageInfo.endCursor).edges.map TaskEdge.node
      = l.take (2 * k)
  ∧ ∀ t ∈ (paginate l k none).edges.map TaskEdge.node,
      t ∉ (paginate l k (paginate l k none).pageInfo.endCursor).edges.map TaskEdge.node := by
  have hconcat : (paginate l k none).edges.map TaskEdge.node
        ++ (paginate l k (paginate l k none).pageInfo.endCursor).edges.map TaskEdge.node
      = l.take (2 * k) := by
    rcases Nat.eq_zero_or_pos k with hk | hk
    · subst hk
      rw [paginate_none_endCursor]
      simp [paginate_none_nodes]
    · rcases eq_or_ne l [] with hl | hl
      · subst hl
        rw [paginate_none_endCursor]
        simp [paginate_none_nodes]
      · obtain ⟨hm, hlast⟩ := take_getLast?_eq l k hk hl
        have hcur : (paginate l k none).pageInfo.endCursor
            = some ((l.get ⟨min k l.length - 1, hm⟩).id) := by
          rw [paginate_none_endCursor, hlast]
          rfl
        have hamem : l.get ⟨min k l.length - 1, hm⟩ ∈ l := l.get_mem _ _
        have ha : (l.get ⟨min k l.length - 1, hm⟩).id ≠ "" := hne _ hamem
        have hfind := find?_id_isSome_of_mem (List.mem_map_of_mem Task.id hamem)
        have hmpos : 1 ≤ min k l.length := by
          have := List.length_pos.2 hl
          omega
        have hfetch : findManyTake l (k + 1) (some ((l.get ⟨min k l.length - 1, hm⟩).id))
            = (l.drop (min k l.length)).take (k + 1) := by
          simp only [findManyTake, if_neg ha, if_pos hfind]
          rw [dropWhile_ne_id_eq_drop l (min k l.length - 1) hm hnd, List.drop_drop]
          have hms : min k l.length - 1 + 1 = min k l.length := by omega
          rw [hms]
        rw [hcur, paginate_none_nodes, paginate_edges_nodes, hfetch, List.take_take]
        have hmin2 : min k (k + 1) = k := by omega
        rw [hmin2]
        rcases le_or_lt k l.length with hkl | hlk
        · have hmk : min k l.length = k := by omega
          rw [hmk]
          have h2k : 2 * k = k + k := by omega
          rw [h2k, take_add_split]
        · have hml : min k l.length = l.length := by omega
          rw [hml, List.drop_length, List.take_nil, List.append_nil,
            List.take_of_length_le (Nat.le_of_lt hlk),
            List.take_of_length_le (by omega)]
  exact ⟨hconcat, append_eq_take_disjoint hconcat hnd⟩

/-- Concrete instantiation of `C2_pagination_round_trip`. -/
theorem C2_pagination_round_trip_witness :
    ((demoStore.map Task.createdAt).Nodup)
      ∧ (paginate demoStore 1 none).edges.map TaskEdge.node
          ++ (paginate demoStore 1
              (paginate demoStore 1 none).pageInfo.endCursor).edges.map TaskEdge.node
        = demoStore.take 2 :=
  ⟨by decide,
    (C2_pagination_round_trip demoStore 1 (by decide) (by decide) (by decide)).1⟩

/-- C3 counterexample: supplying a cursor that corresponds to no record
("ghost") makes `tasksCursor` return an ordinary successful — and empty —
page rather than failing: the code defines no invalid-cursor error at
all, so the claim that the operation fails with InvalidCursor is false. -/
theorem C3_counterexample :
    tasksCursor (some alice) demoStore 2 (some "ghost") none
      = .ok ⟨[], ⟨false, true, none, none⟩, 2⟩ := by
  rfl

/-- C3 amended: when the supplied cursor is non-empty but matches no
record id, the paginator does not fail; it silently returns a page with
no edges, `hasNextPage` false, `hasPreviousPage` true, absent cursors and
the untouched total count. -/
theorem C3_unknown_cursor_silent (l : List Task) (first : Nat) (a : String)
    (ha : a ≠ "") (hmem : a ∉ l.map Task.id) :
    paginate l first (some a) = ⟨[], ⟨false, true, none, none⟩, l.length⟩ := by
  have hfind : l.find? (fun t => t.id = a) = none := by
    rw [List.find?_eq_none]
    intro x hx hxa
    exact hmem (List.mem_map.2 ⟨x, hx, by simpa using hxa⟩)
  simp [paginate, findManyTake, ha, hfind]

/-- Concrete instantiation of `C3_unknown_cursor_silent`. -/
theorem C3_unknown_cursor_silent_witness :
    ("ghost" ∉ demoStore.map Task.id)
      ∧ paginate demoStore 2 (some "ghost")
          = ⟨[], ⟨false, true, none, none⟩, 3⟩ :=
  ⟨by decide, C3_unknown_cursor_silent demoStore 2 "ghost" (by decide) (by decide)⟩

/-- C4: a non-owner principal's update, delete, or toggle of an existing
record fails with the ownership-violation error (`ForbiddenError`) and
leaves the store — and hence the record — unmodified. -/
theorem C4_ownership_enforced (store : List Task) (P : Principal) (id : String)
    (input : UpdateTaskInput) (t : Task)
    (hfind : findById store id = some t) (hown : t.userId ≠ P.id) :
    updateTask (some P) store id input = (.error .forbidden, store)
  ∧ deleteTask (some P) store id = (.error .forbidden, store)
  ∧ toggleTaskComplete (some P) store id = (.error .forbidden, store) := by
  refine ⟨?_, ?_, ?_⟩ <;>
    simp [updateTask, deleteTask, toggleTaskComplete, requireAuth, hfind, hown]

/-- Concrete instantiation of `C4_ownership_enforced`. -/
theorem C4_ownership_enforced_witness :
    findById demoStore "t1" = some demoA
      ∧ updateTask (some bob) demoStore "t1" ⟨none, none, none⟩
          = (.error .forbidden, demoStore) :=
  ⟨by decide,
    (C4_ownership_enforced demoStore bob "t1" ⟨none, none, none⟩ demoA
      (by decide) (by decide)).1⟩

/-- C5: every mutating operation except create performs, in order: fetch
by id, `NotFoundError` when absent, `ForbiddenError` when the caller is
not the owner, otherwise the storage mutation together with the record
snapshot; and after a successful delete a second delete of the same id by
the former owner fails with NotFound, never with the ownership error. -/
theorem C5_mutator_sequence (store : List Task) (P : Principal) (id : String)
    (input : UpdateTaskInput) :
    (findById store id = none →
        updateTask (some P) store id input = (.error .notFound, store)
      ∧ deleteTask (some P) store id = (.error .notFound, store)
      ∧ toggleTaskComplete (some P) store id = (.error .notFound, store))
  ∧ (∀ t, findById store id = some t → t.userId ≠ P.id →
        updateTask (some P) store id input = (.error .forbidden, store)
      ∧ deleteTask (some P) store id = (.error .forbidden, store)
      ∧ toggleTaskComplete (some P) store id = (.error .forbidden, store))
  ∧ (∀ t, findById store id = some t → t.userId = P.id →
        updateTask (some P) store id input
          = (.ok (applyUpdate t input),
             store.map (fun s => if s.id = id then applyUpdate t input else s))
      ∧ deleteTask (some P) store id = (.ok t, store.filter (fun s => s.id ≠ id))
      ∧ toggleTaskComplete (some P) store id
          = (.ok { t with completed := !t.completed },
             store.map (fun s =>
               if s.id = id then { t with completed := !t.completed } else s)))
  ∧ (∀ t, findById store id = some t → t.userId = P.id →
        (deleteTask (some P) (deleteTask (some P) store id).2 id).1
          = .error .notFound) := by
  refine ⟨?_, ?_, ?_, ?_⟩
  · intro hnone
    refine ⟨?_, ?_, ?_⟩ <;>
      simp [updateTask, deleteTask, toggleTaskComplete, requireAuth, hnone]
  · intro t hfind hown
    refine ⟨?_, ?_, ?_⟩ <;>
      simp [updateTask, deleteTask, toggleTaskComplete, requireAuth, hfind, hown]
  · intro t hfind hown
    refine ⟨?_, ?_, ?_⟩ <;>
      simp [updateTask, deleteTask, toggleTaskComplete, requireAuth, hfind, hown]
  · intro t hfind hown
    have hdel : deleteTask (some P) store id
        = (.ok t, store.filter (fun s => s.id ≠ id)) := by
      simp [deleteTask, requireAuth, hfind, hown]
    rw [hdel]
    simp only [deleteTask, requireAuth]
    rw [findById_filter_ne]

/-- Concrete instantiation of `C5_mutator_sequence` (the double-delete
conjunct). -/
theorem C5_mutator_sequence_witness :
    findById demoStore "t1" = some demoA
      ∧ (deleteTask (some alice) (deleteTask (some alice) demoStore "t1").2 "t1").1
          = .error .notFound :=
  ⟨by decide,
    (C5_mutator_sequence demoStore alice "t1" ⟨none, none, none⟩).2.2.2 demoA
      (by decide) (by decide)⟩

/-- C6: whatever the input, a record produced by a successful `createTask`
has its owner reference equal to the authenticated principal's id; the
input type carries no owner field (only title and description, as in the
GraphQL `CreateTaskInput`), so no caller-supplied input can produce a
record owned by a different principal. -/
theorem C6_create_stamps_owner (P : Principal) (store : List Task)
    (input : CreateTaskInput) (freshId : String) (now : Nat)
    (t : Task) (s2 : List Task)
    (h : createTask (some P) store input freshId now = (.ok t, s2)) :
    t.userId = P.id := by
  by_cases hv : input.title = "" ∨ (jsTrim input.title).length < 3
  · simp [createTask, requireAuth, hv] at h
  · simp [createTask, requireAuth, hv] at h
    rw [← h.1]

/-- Concrete instantiation of `C6_create_stamps_owner`. -/
theorem C6_create_stamps_owner_witness :
    createTask (some alice) demoStore ⟨"write it down", none⟩ "t9" 99
        = (.ok ⟨"t9", "write it down", none, false, "alice", 99⟩,
           demoStore ++ [⟨"t9", "write it down", none, false, "alice", 99⟩])
      ∧ (⟨"t9", "write it down", none, false, "alice", 99⟩ : Task).userId = alice.id :=
  ⟨by rfl,
    C6_create_stamps_owner alice demoStore ⟨"write it down", none⟩ "t9" 99 _ _ (by rfl)⟩

/-- C7: the identity resolver, for every jwt-verification collaborator
(`verifyToken` wraps `jwt.verify` in try/catch and returns null on every
malformed, expired or tampered credential, modelled as `verify` returning
`none`): an empty token or any failed verification yields an absent
principal; whenever a principal is produced, its id equals the subject id
embedded in the credential; and a successfully verified credential of a
registered subject yields exactly that subject.  `getContext` is a total
function into `Option`, so it never throws — absence of a principal is
its only negative signal. -/
theorem C7_identity_resolver (verify : String → Option TokenClaims)
    (users : List Principal) (authHeader : String) :
    (jsReplaceFirst authHeader "Bearer " = "" →
        getContext verify users authHeader = none)
  ∧ (verify (jsReplaceFirst authHeader "Bearer ") = none →
        getContext verify users authHeader = none)
  ∧ (∀ u, getContext verify users authHeader = some u →
        ∃ claims, verify (jsReplaceFirst authHeader "Bearer ") = some claims
          ∧ u.id = claims.userId)
  ∧ (∀ claims u, jsReplaceFirst authHeader "Bearer " ≠ "" →
        verify (jsReplaceFirst authHeader "Bearer ") = some claims →
        users.find? (fun x => x.id = claims.userId) = some u →
        getContext verify users authHeader = some u ∧ u.id = claims.userId) := by
  refine ⟨?_, ?_, ?_, ?_⟩
  · intro h
    rw [getContext_eq, if_pos h]
  · intro h
    rw [getContext_eq]
    by_cases ht : jsReplaceFirst authHeader "Bearer " = ""
    · rw [if_pos ht]
    · rw [if_neg ht, h]
  · intro u hu
    rw [getContext_eq] at hu
    split at hu
    · exact absurd hu (by simp)
    · split at hu
      · exact absurd hu (by simp)
      · rename_i d heq
        exact ⟨d, heq, by simpa using List.find?_some hu⟩
  · intro claims u ht hv hfindu
    constructor
    · rw [getContext_eq, if_neg ht, hv]
      exact hfindu
    · simpa using List.find?_some hfindu

/-- Concrete instantiation of `C7_identity_resolver` (a verifier that
rejects every credential produces an absent principal). -/
theorem C7_identity_resolver_witness :
    ((fun _ => (none : Option TokenClaims)) (jsReplaceFirst "Bearer tok" "Bearer ") = none)
      ∧ getContext (fun _ => none) [alice, bob] "Bearer tok" = none :=
  ⟨rfl, (C7_identity_resolver (fun _ => none) [alice, bob] "Bearer tok").2.1 rfl⟩

/-- C8 counterexample: the code orders by `createdAt` descending only.
Two distinct records sharing a timestamp are both-ways comparable yet
unequal, so the ordering is not total in the claimed sense (no id
tie-break exists); both arrangements of the pair are valid newest-first
orders, and resuming with page 1's end cursor against the other valid
arrangement returns nothing — the second record is skipped, which the
claim asserts to be impossible. -/
theorem C8_counterexample :
    List.Sorted createdDescLE [tieX, tieY]
  ∧ List.Sorted createdDescLE [tieY, tieX]
  ∧ tieX ≠ tieY
  ∧ createdDescLE tieX tieY
  ∧ createdDescLE tieY tieX
  ∧ (paginate [tieX, tieY] 1 none).edges.map TaskEdge.node = [tieX]
  ∧ (paginate [tieX, tieY] 1 none).pageInfo.endCursor = some "a-task"
  ∧ (paginate [tieY, tieX] 1 (some "a-task")).edges = [] := by
  refine ⟨?_, ?_, ?_, ?_, ?_, ?_, ?_, ?_⟩ <;> decide

/-- C8 amended: the code's ordering (creation timestamp descending, no
further key) is a total comparison but is antisymmetric only across
distinct timestamps, so it is a total order — making the newest-first
arrangement unique and cursor resumption deterministic — exactly on
collections whose creation timestamps are pairwise distinct; on equal
timestamps the order degenerates and resumption can skip or repeat
records (see the counterexample). -/
theorem C8_order_total_without_tiebreak :
    (∀ t1 t2 : Task, createdDescLE t1 t2 ∨ createdDescLE t2 t1)
  ∧ (∀ t1 t2 : Task, t1.createdAt ≠ t2.createdAt →
        ¬(createdDescLE t1 t2 ∧ createdDescLE t2 t1))
  ∧ ∀ l1 l2 : List Task, l1.Perm l2 → (l1.map Task.createdAt).Nodup →
        List.Sorted createdDescLE l1 → List.Sorted createdDescLE l2 → l1 = l2 := by
  refine ⟨?_, ?_, sorted_perm_eq⟩
  · intro t1 t2
    exact le_total t2.createdAt t1.createdAt
  · intro t1 t2 hne h
    exact hne (le_antisymm h.2 h.1)

/-- Concrete instantiation of `C8_order_total_without_tiebreak`. -/
theorem C8_order_total_without_tiebreak_witness :
    List.Sorted createdDescLE [demoA, demoB]
      ∧ ([demoA, demoB] : List Task) = [demoA, demoB] :=
  ⟨by decide,
    C8_order_total_without_tiebreak.2.2 [demoA, demoB] [demoA, demoB]
      (List.Perm.refl _) (by decide) (by decide) (by decide)⟩

/-- C9: any authenticated principal may paginate any user's tasks: with a
(nonempty) `userId` argument the page's items are drawn from that user's
tasks and `totalCount` counts that user's tasks, whether or not the id is
the caller's own; with `userId` absent the listing defaults to the
caller's tasks. -/
theorem C9_cross_user_listing (P : Principal) (store : List Task)
    (first : Nat) (after : Option String) (u : String) (hu : u ≠ "") :
    (∀ page, tasksCursor (some P) store first after (some u) = .ok page →
        (∀ t ∈ page.edges.map TaskEdge.node, t.userId = u)
      ∧ page.totalCount = (store.filter (fun t => t.userId = u)).length)
  ∧ (∀ page, tasksCursor (some P) store first after none = .ok page →
        (∀ t ∈ page.edges.map TaskEdge.node, t.userId = P.id)
      ∧ page.totalCount = (store.filter (fun t => t.userId = P.id)).length) := by
  constructor
  · intro page hp
    have h : tasksCursor (some P) store first after (some u)
        = .ok (paginate (store.filter (fun t => t.userId = u)) first after) := by
      simp [tasksCursor, requireAuth, hu]
    rw [h] at hp
    have hpage := Except.ok.inj hp
    rw [← hpage]
    constructor
    · intro t ht
      have hmem := paginate_nodes_subset _ first after t ht
      simpa using List.of_mem_filter hmem
    · rfl
  · intro page hp
    have h : tasksCursor (some P) store first after none
        = .ok (paginate (store.filter (fun t => t.userId = P.id)) first after) := rfl
    rw [h] at hp
    have hpage := Except.ok.inj hp
    rw [← hpage]
    constructor
    · intro t ht
      have hmem := paginate_nodes_subset _ first after t ht
      simpa using List.of_mem_filter hmem
    · rfl

/-- Concrete instantiation of `C9_cross_user_listing`: alice lists bob's
tasks. -/
theorem C9_cross_user_listing_witness :
    ("bob" : String) ≠ ""
      ∧ (⟨[⟨"t3", demoC⟩], ⟨false, false, some "t3", some "t3"⟩, 1⟩ : TaskConnection).totalCount
          = (demoStore.filter (fun t => t.userId = "bob")).length :=
  ⟨by decide,
    ((C9_cross_user_listing alice demoStore 10 none "bob" (by decide)).1
      ⟨[⟨"t3", demoC⟩], ⟨false, false, some "t3", some "t3"⟩, 1⟩ (by rfl)).2⟩

/-- C10: the single-task query performs no authentication and no
ownership check — its result is the same for every context, including the
anonymous one — it returns the full record of any existing task whatever
its owner, and it fails with NotFound exactly when no task with the id
exists. -/
theorem C10_task_query_no_auth (store : List Task) (id : String) :
    (∀ c1 c2 : Option Principal, taskQuery c1 store id = taskQuery c2 store id)
  ∧ (∀ t, findById store id = some t →
        ∀ c : Option Principal, taskQuery c store id = .ok t)
  ∧ (findById store id = none →
        ∀ c : Option Principal, taskQuery c store id = .error .notFound) := by
  refine ⟨fun c1 c2 => rfl, ?_, ?_⟩
  · intro t h c
    simp [taskQuery, h]
  · intro h c
    simp [taskQuery, h]

/-- Concrete instantiation of `C10_task_query_no_auth`: an anonymous
caller reads bob's task. -/
theorem C10_task_query_no_auth_witness :
    findById demoStore "t3" = some demoC
      ∧ taskQuery none demoStore "t3" = .ok demoC :=
  ⟨by decide, (C10_task_query_no_auth demoStore "t3").2.1 demoC (by decide) none⟩

end LGraphQL
